import Mathlib

/-!
Verification of the MockApi request-dispatch layer
(src/frontend/mock.api.js/index.js).

Shallow embedding notes.  JavaScript runtime values are modelled by the
flat inductive type Prim (strings, integer numbers, booleans, null,
undefined); records (documents and parsed JSON bodies) are association
lists from field names to Prim values, read in insertion order.  This is
the value universe the claims exercise; nested objects, arrays and
non-integer numbers are outside it.  JavaScript string primitives map to
Lean String (code-point lexicographic order; the sources only compare
ASCII data).  String helpers used by the source (split, trim, case
mapping) are re-implemented structurally over character lists so that
every definition evaluates by kernel reduction.
-/

namespace MockApi

/-- A JavaScript primitive value as stored in records, filters and schemas. -/
inductive Prim where
  | str (s : String)
  | num (n : Int)
  | bool (b : Bool)
  | null
  | undefined
deriving DecidableEq, Repr

/-- Runtime type tag, as returned by the JavaScript typeof operator. -/
def typeOf : Prim → String
  | .str _ => "string"
  | .num _ => "number"
  | .bool _ => "boolean"
  | .null => "object"
  | .undefined => "undefined"

/-- Drop whitespace from both ends of a character list (JS string trim). -/
def trimChars (cs : List Char) : List Char :=
  ((cs.dropWhile Char.isWhitespace).reverse.dropWhile Char.isWhitespace).reverse

/-- Value of a nonempty all-digit character list, else none. -/
def digitsVal (cs : List Char) : Option Nat :=
  match cs with
  | [] => none
  | _ =>
    if cs.all Char.isDigit then
      some (cs.foldl (fun a c => a * 10 + (c.toNat - 48)) 0)
    else none

/-- JS ToNumber on a string, restricted to the integer-literal sublanguage:
optional whitespace, optional sign, decimal digits.  Whitespace-only gives 0;
anything else is NaN, modelled as none. -/
def strToNumber (s : String) : Option Int :=
  match trimChars s.data with
  | [] => some 0
  | '-' :: rest => (digitsVal rest).map (fun n => -(n : Int))
  | '+' :: rest => (digitsVal rest).map (fun n => (n : Int))
  | cs => (digitsVal cs).map (fun n => (n : Int))

/-- JS ToNumber on our value universe; none stands for NaN. -/
def toNumOpt : Prim → Option Int
  | .num n => some n
  | .bool b => some (if b then 1 else 0)
  | .null => some 0
  | .undefined => none
  | .str s => strToNumber s

/-- JS loose equality (the == operator) on the modelled universe, following
the ECMA abstract equality comparison: same-type values compare directly,
null and undefined equate with each other only, and the remaining mixed
string/number/boolean pairs compare through ToNumber. -/
def looseEq (x y : Prim) : Bool :=
  match x, y with
  | .str a, .str b => a == b
  | .num a, .num b => a == b
  | .bool a, .bool b => a == b
  | .null, .null => true
  | .null, .undefined => true
  | .undefined, .null => true
  | .undefined, .undefined => true
  | .null, _ => false
  | _, .null => false
  | .undefined, _ => false
  | _, .undefined => false
  | x, y =>
    match toNumOpt x, toNumOpt y with
    | some m, some n => m == n
    | _, _ => false

/-- Numeric comparison with NaN (none) always answering false. -/
def numOptLt (ox oy : Option Int) : Bool :=
  match ox, oy with
  | some m, some n => decide (m < n)
  | _, _ => false

/-- JS abstract relational comparison (the < operator): two strings compare
lexicographically, every other pair compares through ToNumber, and any NaN
operand makes the comparison false. -/
def jsLt (x y : Prim) : Bool :=
  match x, y with
  | .str a, .str b => decide (a < b)
  | x, y => numOptLt (toNumOpt x) (toNumOpt y)

/-- JS greater-than: a > b is b < a on pure values. -/
def jsGt (x y : Prim) : Bool := jsLt y x

/-- A stored document or parsed JSON object: fields in insertion order. -/
abbrev Rec := List (String × Prim)

/-- Property read item[key]: the first binding of the key, undefined when
the record has no such field. -/
def recGet (item : Rec) (key : String) : Prim :=
  (List.lookup key item).getD .undefined

/-!
Query engine: DbWrapper.find (index.js lines 66-109).  The IndexedDB
cursor walk is modelled as a pass over the record list in cursor order,
pushing every record that survives the filter loop.  Array.prototype.sort
is a stable sort by contract; it is modelled by the stable insertion sort
from Mathlib driven by the comparator of the source.
-/

/-- The filter loop of the cursor callback: walk the (key, value) pairs of
the filter object; the first pair whose value is loosely unequal to the
record value at that key rejects the record (match = false, break). -/
def filterMatch (filter : List (String × Prim)) (item : Rec) : Bool :=
  match filter with
  | [] => true
  | (k, v) :: rest =>
    if !(looseEq (recGet item k) v) then false else filterMatch rest item

/-- The cursor walk: push each record that passes the filter, in order. -/
def collectResults (filter : List (String × Prim)) : List Rec → List Rec
  | [] => []
  | item :: rest =>
    if filterMatch filter item then item :: collectResults filter rest
    else collectResults filter rest

/-- The sort comparator of the source: compare the sort-key values with the
JS relational operators; the declared order string selects the sign; both
comparisons false means the comparator answers 0 (treated as equal). -/
def jsCmp (k ord : String) (a b : Rec) : Int :=
  if jsLt (recGet a k) (recGet b k) then (if ord == "asc" then -1 else 1)
  else if jsGt (recGet a k) (recGet b k) then (if ord == "asc" then 1 else -1)
  else 0

/-- Lower-case an ASCII string (JS toLowerCase on the data in play). -/
def jsToLower (s : String) : String := String.mk (s.data.map Char.toLower)

/-- Upper-case an ASCII string (JS toUpperCase on the data in play). -/
def jsToUpper (s : String) : String := String.mk (s.data.map Char.toUpper)

/-- The sort step: nothing without a sort key; otherwise a stable sort by
the comparator (Array.prototype.sort is specified to be stable).  The sort
object holds at most one key-direction pair, modelled as an option. -/
def sortStep (sort : Option (String × String)) (results : List Rec) : List Rec :=
  match sort with
  | none => results
  | some (k, dir) =>
    let ord := jsToLower dir
    results.insertionSort (fun a b => jsCmp k ord a b ≤ 0)

/-- Resolve one slice endpoint the way Array.prototype.slice does:
negative indices count from the end, and endpoints clamp to the length. -/
def jsSliceIdx (len : Nat) (i : Int) : Nat :=
  if i < 0 then ((len : Int) + i).toNat else min i.toNat len

/-- Array.prototype.slice on lists. -/
def jsSlice (l : List Rec) (start stop : Int) : List Rec :=
  let s := jsSliceIdx l.length start
  let e := jsSliceIdx l.length stop
  (l.drop s).take (e - s)

/-- The paginate field of a query; absent components are none.  A present
page or limit of 0 is falsy in the source and disables pagination. -/
structure Paginate where
  page : Option Int := none
  limit : Option Int := none

/-- A query as accepted by DbWrapper.find. -/
structure Query where
  filter : List (String × Prim) := []
  sort : Option (String × String) := none
  paginate : Paginate := {}

/-- DbWrapper.find: collect the records passing the filter in cursor
order, sort them when a sort key is present, then slice out the requested
page when both page and limit are truthy. -/
def find (records : List Rec) (q : Query) : List Rec :=
  let results := collectResults q.filter records
  let sorted := sortStep q.sort results
  match q.paginate.page, q.paginate.limit with
  | some p, some m =>
    if p != 0 && m != 0 then
      let page := max 1 p
      let startIndex := (page - 1) * m
      jsSlice sorted startIndex (startIndex + m)
    else sorted
  | _, _ => sorted

/-!
Schema validator: validateSchema (index.js lines 164-205).  A field rule
is the declarative bag of the source; the pattern constraint carries the
test function of the RegExp object as an opaque predicate on strings.
Schemas are JS object literals, so their keys are assumed distinct.
-/

/-- One field rule of a schema. -/
structure FieldRule where
  type : Option String := none
  required : Bool := false
  minLength : Option Nat := none
  maxLength : Option Nat := none
  pattern : Option (String → Bool) := none
  min : Option Int := none
  max : Option Int := none
  enum : Option (List Prim) := none

/-- A schema: field names with their rules, in declaration order. -/
abbrev Schema := List (String × FieldRule)

/-- JS String(value) conversion on the modelled universe. -/
def primToStr : Prim → String
  | .str s => s
  | .num n => toString n
  | .bool b => if b then "true" else "false"
  | .null => "null"
  | .undefined => "undefined"

/-- Array.prototype.join with separator ", ": null and undefined elements
render as the empty string, every other element via String(). -/
def joinEnum (l : List Prim) : String :=
  String.intercalate ", " (l.map (fun p =>
    match p with
    | .null => ""
    | .undefined => ""
    | p => primToStr p))

/-- The length read value.length: only strings have one here. -/
def jsLength : Prim → Option Nat
  | .str s => some s.length
  | _ => none

/-- String-rule checks, in source order: minLength, maxLength, pattern.
The bounds are read for truthiness first, so a bound of 0 is skipped. -/
def stringChecks (rule : FieldRule) (value : Prim) : List String :=
  (match rule.minLength with
   | some m =>
     if m != 0 && (match jsLength value with | some l => decide (l < m) | none => false) then
       [s!"Minimum length is {m}"]
     else []
   | none => []) ++
  (match rule.maxLength with
   | some m =>
     if m != 0 && (match jsLength value with | some l => decide (l > m) | none => false) then
       [s!"Maximum length is {m}"]
     else []
   | none => []) ++
  (match rule.pattern with
   | some p => if !(p (primToStr value)) then ["Does not match pattern"] else []
   | none => [])

/-- Number-rule checks, in source order: min, max.  These bounds are
compared against undefined rather than for truthiness, so 0 is honoured. -/
def numberChecks (rule : FieldRule) (value : Prim) : List String :=
  (match rule.min with
   | some m => if jsLt value (.num m) then [s!"Minimum value is {m}"] else []
   | none => []) ++
  (match rule.max with
   | some m => if jsGt value (.num m) then [s!"Maximum value is {m}"] else []
   | none => [])

/-- The switch on the declared type. -/
def typeChecks (rule : FieldRule) (value : Prim) : List String :=
  match rule.type with
  | some "string" => stringChecks rule value
  | some "number" => numberChecks rule value
  | _ => []

/-- The enum membership test: Array.prototype.includes, which compares by
SameValueZero, that is strict same-type equality on this universe. -/
def enumChecks (rule : FieldRule) (value : Prim) : List String :=
  match rule.enum with
  | some l =>
    if !(l.any (fun e => e == value)) then
      [s!"Value must be one of: {joinEnum l}"]
    else []
  | none => []

/-- The accumulated error list for one field: required fields reject null
and missing values outright; otherwise present non-null values run either
the single type-mismatch error or the type-specific checks, always followed
by the enum check; null or missing values on non-required fields run
nothing at all. -/
def fieldCheck (rule : FieldRule) (value : Prim) : List String :=
  if rule.required && (value == .undefined || value == .null) then
    ["Field is required"]
  else if value != .undefined && value != .null then
    (match rule.type with
     | some t =>
       if t != "" && typeOf value != t then [s!"Type must be \x27{t}\x27"]
       else typeChecks rule value
     | none => typeChecks rule value) ++
    enumChecks rule value
  else []

/-- The error map value: the whole-record failure stores a bare string,
per-field failures store the list of violation messages. -/
inductive ErrVal where
  | s (msg : String)
  | l (msgs : List String)
deriving DecidableEq, Repr

/-- The result of validateSchema; errors is none on success. -/
structure ValidationResult where
  success : Bool
  errors : Option (List (String × ErrVal))
deriving DecidableEq, Repr

/-- The data argument of validateSchema: a primitive or an object. -/
inductive BodyVal where
  | prim (p : Prim)
  | obj (fields : Rec)
deriving DecidableEq, Repr

/-- validateSchema: a non-object (or null) datum fails globally under the
sentinel key; otherwise every schema field is checked in declaration order
and the fields that accumulated errors are collected. -/
def validateSchema (data : BodyVal) (schema : Schema) : ValidationResult :=
  match data with
  | .prim _ =>
    { success := false
      errors := some [("_global", .s "Request body was expected to be an object.")] }
  | .obj fields =>
    let errors := schema.foldl (fun acc kv =>
      let fieldErrors := fieldCheck kv.2 (recGet fields kv.1)
      if fieldErrors.length > 0 then acc ++ [(kv.1, ErrVal.l fieldErrors)] else acc) []
    let isValid := errors.length == 0
    { success := isValid, errors := if !isValid then some errors else none }

/-!
Response construction: ResponseHelper (index.js lines 123-159).  The
serialisation to a wire string (JSON.stringify and the Response object)
is plumbing; the helper therefore stores the structured body together
with its content type, and build freezes the draft.
-/

/-- A JSON document, the structured form of response bodies. -/
inductive Json where
  | str (s : String)
  | num (n : Int)
  | bool (b : Bool)
  | null
  | obj (fields : List (String × Json))
  | arr (elems : List Json)

/-- A response body: a JSON payload or plain text. -/
inductive RBody where
  | jsonBody (j : Json)
  | textBody (s : String)

/-- The mutable response draft built by handlers. -/
structure ResponseHelper where
  respStatus : Nat := 200
  respBody : Option RBody := none
  contentType : String := "application/json"

/-- A fresh draft, as produced by the ResponseHelper constructor. -/
def newResponseHelper : ResponseHelper := {}

/-- res.status(code). -/
def ResponseHelper.status (h : ResponseHelper) (code : Nat) : ResponseHelper :=
  { h with respStatus := code }

/-- res.json(data). -/
def ResponseHelper.json (h : ResponseHelper) (data : Json) : ResponseHelper :=
  { h with respBody := some (.jsonBody data), contentType := "application/json" }

/-- JS String(data) on JSON data, used by res.send for non-object data;
array elements render one level deep, as only flat arrays occur here. -/
def jsonDisplay : Json → String
  | .str s => s
  | .num n => toString n
  | .bool b => if b then "true" else "false"
  | .null => "null"
  | .obj _ => "[object Object]"
  | .arr l =>
    String.intercalate "," (l.map (fun j =>
      match j with
      | .str s => s
      | .num n => toString n
      | .bool b => if b then "true" else "false"
      | _ => ""))

/-- res.send(data): objects and arrays go through res.json, anything else
is stringified as plain text. -/
def ResponseHelper.send (h : ResponseHelper) (data : Json) : ResponseHelper :=
  match data with
  | .obj _ => h.json data
  | .arr _ => h.json data
  | d => { h with respBody := some (.textBody (jsonDisplay d)), contentType := "text/plain" }

/-- The statusText table of build. -/
def statusTextFor (code : Nat) : String :=
  if code == 200 then "OK"
  else if code == 201 then "Created"
  else if code == 204 then "No Content"
  else if code == 400 then "Bad Request"
  else if code == 404 then "Not Found"
  else if code == 500 then "Internal Server Error"
  else ""

/-- The finalized response value. -/
structure Response where
  status : Nat
  statusText : String
  contentType : String
  body : Option RBody

/-- res.build(). -/
def ResponseHelper.build (h : ResponseHelper) : Response :=
  { status := h.respStatus, statusText := statusTextFor h.respStatus,
    contentType := h.contentType, body := h.respBody }

/-!
Router: MockApi._register and MockApi._findRoute (index.js lines 314-349).
-/

/-- The request context handed to handlers. -/
structure Req where
  params : List (String × String)
  query : List (String × String)
  body : BodyVal

/-- A route handler: an opaque function over the request context and the
response draft; a thrown error is an Except error. -/
abbrev Handler := Req → ResponseHelper → Except String ResponseHelper

/-- A registered route. -/
structure Route where
  method : String
  path : String
  pathSegments : List String
  params : List (String × Nat)
  schema : Option Schema
  handler : Handler

/-- JS String.prototype.split on a single-character separator. -/
def charSplit (sep : Char) : List Char → List (List Char)
  | [] => [[]]
  | c :: rest =>
    let r := charSplit sep rest
    if c == sep then [] :: r
    else
      match r with
      | s :: ss => (c :: s) :: ss
      | [] => [[c]]

/-- Split a path on the slash and drop the empty (falsy) segments. -/
def splitPath (p : String) : List String :=
  ((charSplit '/' p.data).map String.mk).filter (fun s => s != "")

/-- The parameter table built at registration: name and position of every
segment starting with the colon marker. -/
def routeParams (pathSegments : List String) : List (String × Nat) :=
  pathSegments.enum.filterMap (fun p =>
    match p.2.data with
    | ':' :: nameCs => some (String.mk nameCs, p.1)
    | _ => none)

/-- The route record pushed by _register. -/
def registerRoute (method path : String) (schema : Option Schema) (handler : Handler) : Route :=
  { method := jsToUpper method, path := path, pathSegments := splitPath path,
    params := routeParams (splitPath path), schema := schema, handler := handler }

/-- _register: append the new route to the registration list. -/
def register (method path : String) (schema : Option Schema) (handler : Handler)
    (routes : List Route) : List Route :=
  routes ++ [registerRoute method path schema handler]

/-- Value of a hexadecimal digit character. -/
def hexVal (c : Char) : Option Nat :=
  if '0' ≤ c ∧ c ≤ '9' then some (c.toNat - 48)
  else if 'A' ≤ c ∧ c ≤ 'F' then some (c.toNat - 55)
  else if 'a' ≤ c ∧ c ≤ 'f' then some (c.toNat - 87)
  else none

/-- Read one percent-escaped UTF-8 continuation byte (0x80 to 0xBF),
returning its six payload bits and the rest of the input. -/
def contByte : List Char → Option (Nat × List Char)
  | '%' :: h :: l :: rest =>
    match hexVal h, hexVal l with
    | some a, some b =>
      let v := a * 16 + b
      if 128 ≤ v ∧ v ≤ 191 then some (v - 128, rest) else none
    | _, _ => none
  | _ => none

/-- The ECMA Decode algorithm behind decodeURIComponent: plain characters
pass through; a percent sign must head a full escape; multi-byte UTF-8
sequences must be escaped throughout and decode strictly (no overlong
forms, no surrogates, at most U+10FFFF).  none models the thrown URIError.
The fuel is the input length; every step consumes at least one character,
so the fuel never runs out on the initial call. -/
def decodeLoop : Nat → List Char → Option (List Char)
  | _, [] => some []
  | 0, _ :: _ => none
  | fuel + 1, '%' :: cs =>
    match cs with
    | h :: l :: rest =>
      match hexVal h, hexVal l with
      | some a, some b =>
        let b1 := a * 16 + b
        if b1 < 128 then (decodeLoop fuel rest).map (fun ds => Char.ofNat b1 :: ds)
        else if 192 ≤ b1 ∧ b1 ≤ 223 then
          match contByte rest with
          | some (c1, rest2) =>
            let cp := (b1 - 192) * 64 + c1
            if 128 ≤ cp then (decodeLoop fuel rest2).map (fun ds => Char.ofNat cp :: ds)
            else none
          | none => none
        else if 224 ≤ b1 ∧ b1 ≤ 239 then
          match contByte rest with
          | some (c1, rest2) =>
            match contByte rest2 with
            | some (c2, rest3) =>
              let cp := (b1 - 224) * 4096 + c1 * 64 + c2
              if 2048 ≤ cp ∧ ¬(55296 ≤ cp ∧ cp ≤ 57343) then
                (decodeLoop fuel rest3).map (fun ds => Char.ofNat cp :: ds)
              else none
            | none => none
          | none => none
        else if 240 ≤ b1 ∧ b1 ≤ 247 then
          match contByte rest with
          | some (c1, rest2) =>
            match contByte rest2 with
            | some (c2, rest3) =>
              match contByte rest3 with
              | some (c3, rest4) =>
                let cp := (b1 - 240) * 262144 + c1 * 4096 + c2 * 64 + c3
                if 65536 ≤ cp ∧ cp ≤ 1114111 then
                  (decodeLoop fuel rest4).map (fun ds => Char.ofNat cp :: ds)
                else none
              | none => none
            | none => none
          | none => none
        else none
      | _, _ => none
    | _ => none
  | fuel + 1, c :: cs => (decodeLoop fuel cs).map (fun ds => c :: ds)

/-- decodeURIComponent; none models the thrown URIError. -/
def decodeURIComponent (s : String) : Option String :=
  (decodeLoop s.data.length s.data).map String.mk

/-- JS object property assignment on the params object: overwrite in place
when the key exists, otherwise append. -/
def objSet (m : List (String × String)) (k v : String) : List (String × String) :=
  if m.any (fun p => p.1 == k) then m.map (fun p => if p.1 == k then (k, v) else p)
  else m ++ [(k, v)]

/-- The segment loop of _findRoute: a colon segment captures the decoded
request segment under its parameter name (propagating the URIError of
decodeURIComponent); a literal segment must be equal; a mismatch answers
a plain no-match. -/
def matchSegments : List String → List String → List (String × String) →
    Except String (Option (List (String × String)))
  | [], [], acc => .ok (some acc)
  | routeSeg :: rs, requestSeg :: qs, acc =>
    match routeSeg.data with
    | ':' :: nameCs =>
      match decodeURIComponent requestSeg with
      | some d => matchSegments rs qs (objSet acc (String.mk nameCs) d)
      | none => .error "URIError: URI malformed"
    | _ =>
      if routeSeg == requestSeg then matchSegments rs qs acc else .ok none
  | _, _, _ => .ok none

/-- The route scan of _findRoute: skip routes with the wrong method or
segment count, return the first route whose segments fully match. -/
def findRouteLoop (requestSegments : List String) (method : String) :
    List Route → Except String (Option (Route × List (String × String)))
  | [] => .ok none
  | route :: rest =>
    if route.method != method || route.pathSegments.length != requestSegments.length then
      findRouteLoop requestSegments method rest
    else
      match matchSegments route.pathSegments requestSegments [] with
      | .error e => .error e
      | .ok (some params) => .ok (some (route, params))
      | .ok none => findRouteLoop requestSegments method rest

/-- MockApi._findRoute. -/
def findRoute (routes : List Route) (method urlPath : String) :
    Except String (Option (Route × List (String × String))) :=
  findRouteLoop (splitPath urlPath) method routes

/-!
Dispatcher: MockApi.fetch (index.js lines 351-386).  The URL object and
the simulated latency are plumbing; fetch is modelled from the resolved
pathname and query pairs on.  JSON.parse is modelled by a parser for the
JSON sublanguage matching the value universe: flat objects whose values
are strings (without escape sequences), integers, booleans or null; any
other body text is a parse failure, which the source tolerates by keeping
the raw string.
-/

/-- Skip JSON whitespace. -/
def skipWs (cs : List Char) : List Char :=
  cs.dropWhile (fun c => c == ' ' || c == '\t' || c == '\n' || c == '\r')

/-- Read a JSON string body up to the closing quote; escapes and control
characters are outside the modelled sublanguage. -/
def takeStrAux : List Char → Option (List Char × List Char)
  | [] => none
  | '"' :: rest => some ([], rest)
  | '\\' :: _ => none
  | c :: rest =>
    if c.toNat < 32 then none
    else (takeStrAux rest).map (fun p => (c :: p.1, p.2))

/-- Read a JSON natural literal (no leading zeros). -/
def parseNatTok (cs : List Char) : Option (Nat × List Char) :=
  let ds := cs.takeWhile Char.isDigit
  let rest := cs.dropWhile Char.isDigit
  match ds with
  | [] => none
  | ['0'] => some (0, rest)
  | '0' :: _ :: _ => none
  | _ => some (ds.foldl (fun a c => a * 10 + (c.toNat - 48)) 0, rest)

/-- Read a JSON integer literal. -/
def parseIntTok (cs : List Char) : Option (Int × List Char) :=
  match cs with
  | '-' :: rest => (parseNatTok rest).map (fun p => (-(p.1 : Int), p.2))
  | _ => (parseNatTok cs).map (fun p => ((p.1 : Int), p.2))

/-- Read one primitive JSON value. -/
def parsePrim (cs : List Char) : Option (Prim × List Char) :=
  match cs with
  | '"' :: rest => (takeStrAux rest).map (fun p => (Prim.str (String.mk p.1), p.2))
  | 't' :: 'r' :: 'u' :: 'e' :: rest => some (.bool true, rest)
  | 'f' :: 'a' :: 'l' :: 's' :: 'e' :: rest => some (.bool false, rest)
  | 'n' :: 'u' :: 'l' :: 'l' :: rest => some (.null, rest)
  | _ => (parseIntTok cs).map (fun p => (Prim.num p.1, p.2))

/-- JS property assignment on a record: overwrite in place when the key
exists, otherwise append (used to give duplicate JSON keys last-wins
semantics, as JSON.parse does). -/
def recSet (m : Rec) (k : String) (v : Prim) : Rec :=
  if m.any (fun p => p.1 == k) then m.map (fun p => if p.1 == k then (k, v) else p)
  else m ++ [(k, v)]

/-- Read the members of a JSON object, positioned at a key; the fuel is
the input length, which every iteration strictly consumes. -/
def parsePairs : Nat → List Char → Option (Rec × List Char)
  | 0, _ => none
  | fuel + 1, cs =>
    match cs with
    | '"' :: r =>
      match takeStrAux r with
      | some (kcs, r2) =>
        match skipWs r2 with
        | ':' :: r3 =>
          match parsePrim (skipWs r3) with
          | some (v, r4) =>
            match skipWs r4 with
            | ',' :: r5 =>
              (parsePairs fuel (skipWs r5)).map (fun p => ((String.mk kcs, v) :: p.1, p.2))
            | '\x7d' :: r5 => some ([(String.mk kcs, v)], r5)
            | _ => none
          | none => none
        | _ => none
      | none => none
    | _ => none

/-- JSON.parse on the modelled sublanguage; none models the thrown
SyntaxError. -/
def jsonParse (s : String) : Option BodyVal :=
  let cs := skipWs s.data
  match cs with
  | '\x7b' :: rest =>
    match skipWs rest with
    | '\x7d' :: tail => if skipWs tail == [] then some (.obj []) else none
    | cs2 =>
      match parsePairs s.data.length cs2 with
      | some (fields, tail) =>
        if skipWs tail == [] then
          some (.obj (fields.foldl (fun acc kv => recSet acc kv.1 kv.2) []))
        else none
      | none => none
  | _ =>
    match parsePrim cs with
    | some (p, tail) => if skipWs tail == [] then some (.prim p) else none
    | none => none

/-- The body step of fetch: a truthy body string is JSON-parsed, a parse
failure keeps the raw string, and an absent or empty body stays null. -/
def parseBody (optBody : Option String) : BodyVal :=
  match optBody with
  | some s =>
    if s != "" then
      match jsonParse s with
      | some v => v
      | none => .prim (.str s)
    else .prim .null
  | none => .prim .null

/-- Serialise a validation error map into the JSON body of a 400
response. -/
def errsToJson (e : Option (List (String × ErrVal))) : Json :=
  match e with
  | none => .null
  | some l =>
    .obj (l.map (fun kv =>
      (kv.1, match kv.2 with
             | .s m => Json.str m
             | .l ms => Json.arr (ms.map Json.str))))

/-- MockApi.fetch on an initialised instance, modelled from the resolved
pathname and query pairs: route lookup (propagating its URIError), the
404 path, body parsing, the schema gate for POST, PUT and PATCH with its
400 path, then the handler under the catch that maps a thrown error to
the generic 500 response. -/
def fetch (routes : List Route) (pathname : String) (queryPairs : List (String × String))
    (optMethod : Option String) (optBody : Option String) : Except String Response :=
  let method := jsToUpper (optMethod.getD "GET")
  match findRoute routes method pathname with
  | .error e => .error e
  | .ok none =>
    .ok ((newResponseHelper.status 404).json
      (.obj [("message", .str s!"Route {method} {pathname} not found.")])).build
  | .ok (some (route, params)) =>
    let body := parseBody optBody
    let earlyOut : Option Response :=
      match route.schema with
      | some sch =>
        if method == "POST" || method == "PUT" || method == "PATCH" then
          let validationResult := validateSchema body sch
          if !validationResult.success then
            some ((newResponseHelper.status 400).json
              (.obj [("message", .str "Validation Error"),
                     ("errors", errsToJson validationResult.errors)])).build
          else none
        else none
      | none => none
    match earlyOut with
    | some resp => .ok resp
    | none =>
      let req : Req := { params := params, query := queryPairs, body := body }
      match route.handler req newResponseHelper with
      | .ok res => .ok res.build
      | .error _ =>
        .ok ((newResponseHelper.status 500).json
          (.obj [("message", .str "Internal Server Error")])).build

/-!
Auxiliary predicates used to state the claims.
-/

/-- The full-match criterion of _findRoute, read off the segment loop:
equal method, equal segment count, and segmentwise a colon segment matches
anything while a literal segment must be equal.  (Capture and decoding do
not influence whether a route matches.) -/
def segsMatch : List String → List String → Bool
  | [], [] => true
  | routeSeg :: rs, requestSeg :: qs =>
    (match routeSeg.data with
     | ':' :: _ => true
     | _ => routeSeg == requestSeg) && segsMatch rs qs
  | _, _ => false

/-- Whether a route fully matches a method and request segment list. -/
def routeFullMatch (route : Route) (method : String) (requestSegments : List String) : Bool :=
  route.method == method &&
  route.pathSegments.length == requestSegments.length &&
  segsMatch route.pathSegments requestSegments

/-- Shape check following the words of the spec: the errors component of a
ValidationResult is a mapping from field names to lists of strings. -/
def specErrorsShape (e : Option (List (String × ErrVal))) : Bool :=
  match e with
  | none => true
  | some l =>
    l.all (fun kv =>
      match kv.2 with
      | .l _ => true
      | .s _ => false)

/-- Whether a value is a string primitive. -/
def isStringVal : Prim → Bool
  | .str _ => true
  | _ => false

/-- Whether a value is a number primitive. -/
def isNumberVal : Prim → Bool
  | .num _ => true
  | _ => false

/-!
Helper lemmas.
-/

theorem numOptLt_asymm (ox oy : Option Int) (h : numOptLt ox oy = true) :
    numOptLt oy ox = false := by
  cases ox <;> cases oy <;> simp [numOptLt] at h ⊢
  omega

theorem jsLt_asymm (x y : Prim) (h : jsLt x y = true) : jsLt y x = false := by
  cases x <;> cases y <;> simp only [jsLt] at h ⊢ <;>
    first
      | (simp only [decide_eq_true_eq] at h
         simp only [decide_eq_false_iff_not]
         exact lt_asymm h)
      | exact numOptLt_asymm _ _ h

theorem filterMatch_eq_all (f : List (String × Prim)) (item : Rec) :
    filterMatch f item = f.all (fun kv => looseEq (recGet item kv.1) kv.2) := by
  induction f with
  | nil => rfl
  | cons kv rest ih =>
    obtain ⟨k, v⟩ := kv
    by_cases h : looseEq (recGet item k) v = true
    · simp [filterMatch, h, ih]
    · simp only [Bool.not_eq_true] at h
      simp [filterMatch, h]

theorem collectResults_eq_filter (f : List (String × Prim)) (l : List Rec) :
    collectResults f l = l.filter (fun item => filterMatch f item) := by
  induction l with
  | nil => rfl
  | cons item rest ih =>
    by_cases h : filterMatch f item = true
    · simp [collectResults, h, ih, List.filter_cons]
    · simp only [Bool.not_eq_true] at h
      simp [collectResults, h, ih, List.filter_cons]

theorem jsSlice_drop_take (l : List Rec) (a b : Nat) :
    jsSlice l (a : Int) ((a : Int) + (b : Int)) = (l.drop a).take b := by
  unfold jsSlice jsSliceIdx
  have h0 : ¬((a : Int) < 0) := by omega
  have h1 : ¬((a : Int) + (b : Int) < 0) := by omega
  simp only [h0, if_false, h1]
  have h2 : ((a : Int)).toNat = a := by omega
  have h3 : ((a : Int) + (b : Int)).toNat = a + b := by omega
  rw [h2, h3]
  rcases le_or_lt a l.length with hle | hlt
  · rw [min_eq_left hle]
    rcases le_or_lt (a + b) l.length with h4 | h4
    · rw [min_eq_left h4]
      congr 1
      omega
    · rw [min_eq_right (by omega : l.length ≤ a + b)]
      rw [List.take_of_length_le (by rw [List.length_drop]),
          List.take_of_length_le (by rw [List.length_drop]; omega)]
  · rw [min_eq_right (le_of_lt hlt), min_eq_right (by omega : l.length ≤ a + b)]
    simp [List.drop_eq_nil_of_le (le_of_lt hlt), List.drop_length]

/-!
Claim theorems.
-/

/-- Claim C2: with routes for /a/:x and then /a/b registered in that
order, a GET of /a/b matches the first-registered parameterised route with
the capture x = b; registration order alone breaks the tie, there is no
specificity scoring. -/
theorem c2_first_registered_route_wins (s1 s2 : Option Schema) (h1 h2 : Handler) :
    findRoute (register "GET" "/a/b" s2 h2 (register "GET" "/a/:x" s1 h1 [])) "GET" "/a/b"
      = .ok (some (registerRoute "GET" "/a/:x" s1 h1, [("x", "b")])) := rfl

/-- Claim C1 (the failing path): fetch on an initialised instance with a
registered route GET /users/:id, asked for /users/PERCENT, lets the
URIError of decodeURIComponent escape instead of producing a response
value: the error constructor of the model is the thrown exception. -/
theorem c1_fetch_raises_uri_error :
    fetch [registerRoute "GET" "/users/:id" none (fun _ h => .ok h)]
        "/users/%" [] (some "GET") none
      = .error "URIError: URI malformed" := rfl

/-- Claim C8 (the failing path): with the single route GET /:x/c, the
request path /PERCENT/d matches no route (the literal segments differ),
yet _findRoute raises the URIError from decoding the parameter segment
instead of returning the normal no-match value. -/
theorem c8_zero_matches_still_raises :
    routeFullMatch (registerRoute "GET" "/:x/c" none (fun _ h => .ok h)) "GET"
        (splitPath "/%/d") = false
    ∧ findRoute [registerRoute "GET" "/:x/c" none (fun _ h => .ok h)] "GET" "/%/d"
      = .error "URIError: URI malformed" :=
  ⟨rfl, rfl⟩

/-- Claim C3: with page at least 1 and limit at least 1, find returns
exactly the 1-indexed page slice of the filtered-then-sorted sequence,
an out-of-range page gives the empty sequence rather than an error, and
omitting pagination returns the whole filtered and sorted sequence;
pagination acts on the result of filtering and sorting. -/
theorem c3_pagination_slices_after_filter_and_sort
    (records : List Rec) (f : List (String × Prim)) (srt : Option (String × String))
    (p m : Int) (hp : 1 ≤ p) (hm : 1 ≤ m) :
    find records { filter := f, sort := srt, paginate := { page := some p, limit := some m } }
      = ((find records { filter := f, sort := srt, paginate := {} }).drop
          ((p - 1) * m).toNat).take m.toNat
    ∧ (((find records { filter := f, sort := srt, paginate := {} }).length : Int) ≤ (p - 1) * m →
        find records { filter := f, sort := srt, paginate := { page := some p, limit := some m } }
          = [])
    ∧ find records { filter := f, sort := srt, paginate := {} }
        = sortStep srt (collectResults f records) := by
  have hp' : p ≠ 0 := by omega
  have hm' : m ≠ 0 := by omega
  have hmax : max 1 p = p := max_eq_right hp
  have key : find records
        { filter := f, sort := srt, paginate := { page := some p, limit := some m } }
      = jsSlice (sortStep srt (collectResults f records)) ((p - 1) * m) ((p - 1) * m + m) := by
    simp [find, hp', hm', hmax]
  have ha : ((((p - 1) * m).toNat : Int)) = (p - 1) * m :=
    Int.toNat_of_nonneg (mul_nonneg (by omega) (by omega))
  have hb : ((m.toNat : Int)) = m := Int.toNat_of_nonneg (by omega)
  have main : find records
        { filter := f, sort := srt, paginate := { page := some p, limit := some m } }
      = ((find records { filter := f, sort := srt, paginate := {} }).drop
          ((p - 1) * m).toNat).take m.toNat := by
    rw [key]
    rw [show (p - 1) * m = ((((p - 1) * m).toNat : Int)) from ha.symm]
    rw [show ((((p - 1) * m).toNat : Int)) + m
          = ((((p - 1) * m).toNat : Int)) + ((m.toNat : Int)) by rw [hb]]
    exact jsSlice_drop_take _ _ _
  refine ⟨main, ?_, rfl⟩
  intro hlen
  rw [main, List.drop_eq_nil_of_le (by omega), List.take_nil]

/-- Claim C3 witness: page 2 with limit 2 over five records returns the
records at 0-indexed positions 2 and 3. -/
theorem c3_pagination_witness :
    find [[("i", Prim.num 1)], [("i", Prim.num 2)], [("i", Prim.num 3)],
          [("i", Prim.num 4)], [("i", Prim.num 5)]]
      { paginate := { page := some 2, limit := some 2 } }
      = [[("i", Prim.num 3)], [("i", Prim.num 4)]] :=
  (c3_pagination_slices_after_filter_and_sort
      [[("i", Prim.num 1)], [("i", Prim.num 2)], [("i", Prim.num 3)],
       [("i", Prim.num 4)], [("i", Prim.num 5)]]
      [] none 2 2 (by omega) (by omega)).1.trans rfl

/-- Claim C4 counterexample: the claim says a record lacking a filter key
is excluded whenever the filter value is concrete (non-undefined), but a
null filter value loosely equals the undefined read of the missing key,
so the record is kept. -/
theorem c4_missing_key_matches_null_filter :
    looseEq .undefined .null = true
    ∧ find [([] : Rec)] { filter := [("k", Prim.null)] } = [([] : Rec)] :=
  ⟨rfl, rfl⟩

/-- Claim C4 (amended): find with a filter alone returns exactly the
records, in original order, whose value at every filter key loosely equals
the filter value; a record lacking a filter key is excluded when the
filter value is neither undefined nor null (a null filter value matches a
missing key, since undefined loosely equals null). -/
theorem c4_filter_keeps_loose_matches (records : List Rec) (f : List (String × Prim)) :
    find records { filter := f }
      = records.filter (fun item => f.all (fun kv => looseEq (recGet item kv.1) kv.2))
    ∧ (∀ item : Rec, ∀ k : String, ∀ v : Prim,
        (k, v) ∈ f → List.lookup k item = none → v ≠ .null → v ≠ .undefined →
        filterMatch f item = false) := by
  constructor
  · calc find records { filter := f } = collectResults f records := rfl
      _ = records.filter (fun item => filterMatch f item) := collectResults_eq_filter f records
      _ = records.filter (fun item => f.all (fun kv => looseEq (recGet item kv.1) kv.2)) :=
        List.filter_congr (fun item _ => filterMatch_eq_all f item)
  · intro item k v hmem hlook hv1 hv2
    rw [filterMatch_eq_all]
    have hfalse : looseEq (recGet item k) v = false := by
      rw [recGet, hlook]
      cases v <;> simp [looseEq] at hv1 hv2 ⊢
    refine List.all_eq_false.mpr ⟨(k, v), hmem, ?_⟩
    simp [hfalse]

/-- Claim C4 witness: a record without the filter key is excluded for a
concrete string filter value, and a draft filter keeps exactly the
loosely equal records in original order. -/
theorem c4_filter_witness :
    filterMatch [("k", Prim.str "x")] ([] : Rec) = false
    ∧ find [[("status", Prim.str "draft")], [("status", Prim.str "published")]]
        { filter := [("status", Prim.str "draft")] }
        = [[("status", Prim.str "draft")]] :=
  ⟨(c4_filter_keeps_loose_matches [] [("k", Prim.str "x")]).2 [] "k" (Prim.str "x")
      (by simp) rfl (by decide) (by decide),
   (c4_filter_keeps_loose_matches
      [[("status", Prim.str "draft")], [("status", Prim.str "published")]]
      [("status", Prim.str "draft")]).1.trans rfl⟩

/-- Claim C5 counterexample: a declared maxLength of 0 is falsy, so the
violated maximum-length constraint (the value has length 2, over the
declared bound 0) appends no error and validation succeeds, against the
claim that every violated type-specific constraint appends one error. -/
theorem c5_maxlength_zero_violation_ignored :
    validateSchema (.obj [("f", Prim.str "ab")])
        [("f", { type := some "string", maxLength := some 0 })]
      = { success := true, errors := none }
    ∧ fieldCheck { type := some "string", maxLength := some 0 } (Prim.str "ab") = []
    ∧ jsLength (Prim.str "ab") = some 2 :=
  ⟨rfl, rfl, rfl⟩

/-- Claim C5 (amended): a present non-null value of the wrong declared
type gets exactly the single type error with every type-specific
constraint skipped, while the enum check still runs afterwards; when the
type agrees, the type-specific checks run in order and each violated
constraint with a truthy (nonzero) bound appends one error, so multiple
violations accumulate; a bound of 0 is treated as absent. -/
theorem c5_type_gate_and_constraint_accumulation
    (rule : FieldRule) (value : Prim) (t s : String) (mn mx : Nat) :
    (rule.type = some t → t ≠ "" → typeOf value ≠ t → value ≠ .undefined → value ≠ .null →
      fieldCheck rule value = s!"Type must be \x27{t}\x27" :: enumChecks rule value)
    ∧ (rule.type = some "string" →
        fieldCheck rule (.str s) = stringChecks rule (.str s) ++ enumChecks rule (.str s))
    ∧ (rule.type = some "string" → rule.minLength = some mn → mn ≠ 0 → s.length < mn →
        s!"Minimum length is {mn}" ∈ fieldCheck rule (.str s))
    ∧ (rule.type = some "string" → rule.maxLength = some mx → mx ≠ 0 → mx < s.length →
        s!"Maximum length is {mx}" ∈ fieldCheck rule (.str s))
    ∧ (∀ n : Int, rule.type = some "number" →
        fieldCheck rule (.num n) = numberChecks rule (.num n) ++ enumChecks rule (.num n)) := by
  have agree : rule.type = some "string" →
      fieldCheck rule (.str s) = stringChecks rule (.str s) ++ enumChecks rule (.str s) := by
    intro h1
    simp [fieldCheck, h1, typeChecks, typeOf]
  refine ⟨?_, agree, ?_, ?_, ?_⟩
  · intro h1 h2 h3 h4 h5
    simp [fieldCheck, h1, h2, h3, h4, h5]
  · intro h1 hm hne hlt
    rw [agree h1]
    simp [stringChecks, jsLength, hm, hne, hlt]
  · intro h1 hm hne hlt
    rw [agree h1]
    simp [stringChecks, jsLength, hm, hne, hlt]
  · intro n h1
    simp [fieldCheck, h1, typeChecks, typeOf]

/-- Claim C5 witness: a number where a string was declared gets the single
type error, with the violated enum constraint still appended after it. -/
theorem c5_witness :
    fieldCheck { type := some "string", enum := some [Prim.str "draft", Prim.str "published"] }
        (Prim.num 3)
      = ["Type must be \x27string\x27", "Value must be one of: draft, published"] :=
  ((c5_type_gate_and_constraint_accumulation
      { type := some "string", enum := some [Prim.str "draft", Prim.str "published"] }
      (Prim.num 3) "string" "" 0 0).1 rfl (by decide) (by decide) (by decide) (by decide)).trans
    rfl

/-- Claim C6: when the matched route declares a schema, the method is one
of POST, PUT or PATCH and validation of the parsed body fails, fetch
returns the 400 response built from the structured error mapping, and the
response is independent of the handler of the route (the handler is never
invoked: the route and its handler are universally quantified and absent
from the result). -/
theorem c6_validation_failure_short_circuits
    (routes : List Route) (pathname : String) (qp : List (String × String))
    (optMethod optBody : Option String) (route : Route) (params : List (String × String))
    (sch : Schema) (errs : List (String × ErrVal))
    (hfind : findRoute routes (jsToUpper (optMethod.getD "GET")) pathname
      = .ok (some (route, params)))
    (hschema : route.schema = some sch)
    (hmethod : jsToUpper (optMethod.getD "GET") = "POST"
      ∨ jsToUpper (optMethod.getD "GET") = "PUT"
      ∨ jsToUpper (optMethod.getD "GET") = "PATCH")
    (hval : validateSchema (parseBody optBody) sch = { success := false, errors := some errs }) :
    fetch routes pathname qp optMethod optBody
      = .ok (((newResponseHelper.status 400).json
          (.obj [("message", .str "Validation Error"),
                 ("errors", errsToJson (some errs))])).build) := by
  rcases hmethod with h | h | h <;>
    (rw [h] at hfind; simp [fetch, h, hfind, hschema, hval])

/-- Claim C6 witness: posting an empty JSON object against a schema with a
required title yields the 400 validation response. -/
theorem c6_witness :
    fetch [registerRoute "post" "/posts"
            (some [("title", { type := some "string", required := true })])
            (fun _ h => .ok (h.status 201))]
        "/posts" [] (some "POST") (some "\x7b\x7d")
      = .ok (((newResponseHelper.status 400).json
          (.obj [("message", .str "Validation Error"),
                 ("errors", errsToJson (some [("title", .l ["Field is required"])]))])).build) :=
  c6_validation_failure_short_circuits
    [registerRoute "post" "/posts"
        (some [("title", { type := some "string", required := true })])
        (fun _ h => .ok (h.status 201))]
    "/posts" [] (some "POST") (some "\x7b\x7d")
    (registerRoute "post" "/posts"
        (some [("title", { type := some "string", required := true })])
        (fun _ h => .ok (h.status 201)))
    [] [("title", { type := some "string", required := true })]
    [("title", .l ["Field is required"])]
    rfl rfl (Or.inl rfl) rfl

/-- Claim C10: a non-required field whose value is null or missing runs no
check at all, including the enum membership check, so the field collects
no error even against a rule declaring a type, bounds and an enum. -/
theorem c10_non_required_null_skips_all_checks
    (rule : FieldRule) (value : Prim) (fields : Rec) (fname : String)
    (hreq : rule.required = false)
    (hval : value = .null ∨ value = .undefined) :
    fieldCheck rule value = []
    ∧ (recGet fields fname = .null →
        validateSchema (.obj fields) [(fname, rule)] = { success := true, errors := none }) := by
  have hnull : fieldCheck rule Prim.null = [] := by simp [fieldCheck, hreq]
  have hUndefinedVal : fieldCheck rule Prim.undefined = [] := by simp [fieldCheck, hreq]
  constructor
  · rcases hval with h | h <;> rw [h]
    · exact hnull
    · exact hUndefinedVal
  · intro hget
    simp [validateSchema, hget, hnull]

/-- Claim C10 witness: a null status passes a non-required rule carrying a
type, a length bound and an enum that null does not belong to. -/
theorem c10_witness :
    fieldCheck { type := some "string", minLength := some 5,
                 enum := some [Prim.str "draft"] } Prim.null = []
    ∧ validateSchema (.obj [("status", Prim.null)])
        [("status", { type := some "string", minLength := some 5,
                      enum := some [Prim.str "draft"] })]
      = { success := true, errors := none } :=
  ⟨(c10_non_required_null_skips_all_checks
      { type := some "string", minLength := some 5, enum := some [Prim.str "draft"] }
      Prim.null [("status", Prim.null)] "status" rfl (Or.inl rfl)).1,
   (c10_non_required_null_skips_all_checks
      { type := some "string", minLength := some 5, enum := some [Prim.str "draft"] }
      Prim.null [("status", Prim.null)] "status" rfl (Or.inl rfl)).2 rfl⟩

theorem validate_fold_eq (schema : Schema) (fields : Rec) (acc : List (String × ErrVal)) :
    schema.foldl (fun acc kv =>
      let fieldErrors := fieldCheck kv.2 (recGet fields kv.1)
      if fieldErrors.length > 0 then acc ++ [(kv.1, ErrVal.l fieldErrors)] else acc) acc
    = acc ++ schema.filterMap (fun kv =>
        let fieldErrors := fieldCheck kv.2 (recGet fields kv.1)
        if fieldErrors.length > 0 then some (kv.1, ErrVal.l fieldErrors) else none) := by
  induction schema generalizing acc with
  | nil => simp
  | cons kv rest ih =>
    by_cases h : (fieldCheck kv.2 (recGet fields kv.1)).length > 0
    · simp only [List.foldl_cons, List.filterMap_cons, h, if_pos h, ih]
      simp [h]
    · simp only [List.foldl_cons, List.filterMap_cons, if_neg h, ih]

/-- Claim C9 counterexample: on a non-object datum the errors component
maps the sentinel key to a bare string, not to a list of strings, against
the claimed mapping-to-list-of-strings shape. -/
theorem c9_global_error_is_bare_string :
    validateSchema (.prim .null) []
      = { success := false,
          errors := some [("_global", .s "Request body was expected to be an object.")] }
    ∧ specErrorsShape (validateSchema (.prim .null) []).errors = false :=
  ⟨rfl, rfl⟩

/-- Claim C9 (amended): success holds exactly when no schema field
accumulates an error, equivalently when the errors component is absent;
for object data the errors component maps field names to ordered lists of
violation strings; a non-object datum fails globally under the sentinel
whole-record key, whose error value is a single string rather than a
list. -/
theorem c9_result_shape (schema : Schema) :
    (∀ fields : Rec,
      ((validateSchema (.obj fields) schema).success = true
          ↔ ∀ kv ∈ schema, fieldCheck kv.2 (recGet fields kv.1) = [])
        ∧ ((validateSchema (.obj fields) schema).success = true
          ↔ (validateSchema (.obj fields) schema).errors = none)
        ∧ specErrorsShape (validateSchema (.obj fields) schema).errors = true)
    ∧ (∀ p : Prim,
        validateSchema (.prim p) schema
          = { success := false,
              errors := some [("_global", .s "Request body was expected to be an object.")] }) := by
  constructor
  · intro fields
    have hv : validateSchema (.obj fields) schema
        = { success := (schema.filterMap (fun kv =>
              let fieldErrors := fieldCheck kv.2 (recGet fields kv.1)
              if fieldErrors.length > 0 then some (kv.1, ErrVal.l fieldErrors)
              else none)).length == 0,
            errors := if !((schema.filterMap (fun kv =>
              let fieldErrors := fieldCheck kv.2 (recGet fields kv.1)
              if fieldErrors.length > 0 then some (kv.1, ErrVal.l fieldErrors)
              else none)).length == 0) then
                some (schema.filterMap (fun kv =>
                  let fieldErrors := fieldCheck kv.2 (recGet fields kv.1)
                  if fieldErrors.length > 0 then some (kv.1, ErrVal.l fieldErrors)
                  else none))
              else none } := by
      simp only [validateSchema, validate_fold_eq, List.nil_append]
    set E := schema.filterMap (fun kv =>
      let fieldErrors := fieldCheck kv.2 (recGet fields kv.1)
      if fieldErrors.length > 0 then some (kv.1, ErrVal.l fieldErrors) else none) with hEq
    have hshape : ∀ x ∈ E, (match x.2 with | .l _ => true | .s _ => false) = true := by
      intro x hx
      rw [hEq] at hx
      obtain ⟨kv, hmem, hkv⟩ := List.mem_filterMap.mp hx
      by_cases h : (fieldCheck kv.2 (recGet fields kv.1)).length > 0
      · simp only [h, if_true] at hkv
        have hx2 := Option.some.inj hkv
        subst hx2
        rfl
      · simp [h] at hkv
    refine ⟨?_, ?_, ?_⟩
    · rw [hv]
      simp only [beq_iff_eq, List.length_eq_zero]
      constructor
      · intro hE kv hkv
        have := List.filterMap_eq_nil_iff.mp hE kv hkv
        by_cases h : (fieldCheck kv.2 (recGet fields kv.1)).length > 0
        · simp [if_pos h] at this
        · simpa using h
      · intro hall
        apply List.filterMap_eq_nil_iff.mpr
        intro kv hkv
        simp [hall kv hkv]
    · rw [hv]
      by_cases h : E.length = 0
      · simp [h]
      · simp [h]
    · rw [hv]
      by_cases h : E.length = 0
      · simp [h, specErrorsShape]
      · have hb : (E.length == 0) = false := by simpa using h
        simp only [hb, Bool.not_false, if_true]
        simp only [specErrorsShape, List.all_eq_true]
        exact hshape
  · intro p
    rfl

/-- Claim C9 witness: a numeric datum fails globally under the sentinel
key with the single global message. -/
theorem c9_witness :
    validateSchema (.prim (Prim.num 1)) []
      = { success := false,
          errors := some [("_global", .s "Request body was expected to be an object.")] } :=
  (c9_result_shape []).2 (Prim.num 1)

theorem jsLt_irrefl (x : Prim) : jsLt x x = false := by
  cases x <;> simp [jsLt, numOptLt, toNumOpt]

theorem jsCmp_le_total (k ord : String) (a b : Rec) :
    jsCmp k ord a b ≤ 0 ∨ jsCmp k ord b a ≤ 0 := by
  by_cases h1 : jsLt (recGet a k) (recGet b k) = true
  · have h2 : jsLt (recGet b k) (recGet a k) = false := jsLt_asymm _ _ h1
    cases hb : (ord == "asc") <;> simp [jsCmp, jsGt, h1, h2, hb]
  · by_cases h2 : jsLt (recGet b k) (recGet a k) = true
    · cases hb : (ord == "asc") <;> simp [jsCmp, jsGt, h1, h2, hb]
    · simp [jsCmp, jsGt, h1, h2]

theorem jsCmp_le_zero_asc (k ord : String) (hord : (ord == "asc") = true) (a b : Rec) :
    jsCmp k ord a b ≤ 0 ↔ jsLt (recGet b k) (recGet a k) = false := by
  by_cases h1 : jsLt (recGet a k) (recGet b k) = true
  · have h2 := jsLt_asymm _ _ h1
    simp [jsCmp, jsGt, h1, h2, hord]
  · by_cases h2 : jsLt (recGet b k) (recGet a k) = true
    · simp [jsCmp, jsGt, h1, h2, hord]
    · simp [jsCmp, jsGt, h1, h2, hord]

theorem jsCmp_le_zero_desc (k ord : String) (hord : (ord == "asc") = false) (a b : Rec) :
    jsCmp k ord a b ≤ 0 ↔ jsLt (recGet a k) (recGet b k) = false := by
  by_cases h1 : jsLt (recGet a k) (recGet b k) = true
  · have h2 := jsLt_asymm _ _ h1
    simp [jsCmp, jsGt, h1, h2, hord]
  · by_cases h2 : jsLt (recGet b k) (recGet a k) = true
    · simp [jsCmp, jsGt, h1, h2, hord]
    · simp [jsCmp, jsGt, h1, h2, hord]

theorem sorted_orderedInsert_local {α : Type _} (r : α → α → Prop) [DecidableRel r]
    (x : α) (l : List α) (hs : l.Sorted r)
    (htot : ∀ b ∈ l, r x b ∨ r b x)
    (htrans : ∀ b ∈ l, ∀ c ∈ l, r x b → r b c → r x c) :
    (l.orderedInsert r x).Sorted r := by
  induction l with
  | nil => exact List.sorted_singleton x
  | cons b t ih =>
    by_cases hxb : r x b
    · rw [List.orderedInsert, if_pos hxb, List.sorted_cons]
      refine ⟨?_, hs⟩
      intro y hy
      rcases List.mem_cons.mp hy with rfl | hyt
      · exact hxb
      · exact htrans b (List.mem_cons_self b t) y (List.mem_cons_of_mem b hyt) hxb
          (List.rel_of_sorted_cons hs y hyt)
    · rw [List.orderedInsert, if_neg hxb, List.sorted_cons]
      constructor
      · intro y hy
        rcases (List.mem_orderedInsert r).mp hy with rfl | hyt
        · rcases htot b (List.mem_cons_self b t) with h | h
          · exact absurd h hxb
          · exact h
        · exact List.rel_of_sorted_cons hs y hyt
      · exact ih (List.Sorted.of_cons hs)
          (fun c hc => htot c (List.mem_cons_of_mem b hc))
          (fun c hc d hd => htrans c (List.mem_cons_of_mem b hc) d (List.mem_cons_of_mem b hd))

theorem sorted_insertionSort_local {α : Type _} (r : α → α → Prop) [DecidableRel r]
    (l : List α)
    (htot : ∀ a ∈ l, ∀ b ∈ l, r a b ∨ r b a)
    (htrans : ∀ a ∈ l, ∀ b ∈ l, ∀ c ∈ l, r a b → r b c → r a c) :
    (l.insertionSort r).Sorted r := by
  induction l with
  | nil => exact List.sorted_nil
  | cons x t ih =>
    rw [List.insertionSort]
    refine sorted_orderedInsert_local r x (t.insertionSort r) ?_ ?_ ?_
    · exact ih
        (fun a ha b hb => htot a (List.mem_cons_of_mem x ha) b (List.mem_cons_of_mem x hb))
        (fun a ha b hb c hc => htrans a (List.mem_cons_of_mem x ha) b (List.mem_cons_of_mem x hb)
          c (List.mem_cons_of_mem x hc))
    · intro b hb
      exact htot x (List.mem_cons_self x t) b
        (List.mem_cons_of_mem x ((List.mem_insertionSort r).mp hb))
    · intro b hb c hc hxb hbc
      exact htrans x (List.mem_cons_self x t) b
        (List.mem_cons_of_mem x ((List.mem_insertionSort r).mp hb))
        c (List.mem_cons_of_mem x ((List.mem_insertionSort r).mp hc)) hxb hbc

theorem insertionSort_filter_stable {α : Type _} (r : α → α → Prop) [DecidableRel r]
    (l : List α) (p : α → Bool)
    (hp : ∀ a b, p a = true → p b = true → r a b) :
    (l.insertionSort r).filter p = l.filter p := by
  have hpair : (l.filter p).Pairwise r :=
    List.pairwise_of_forall_mem_list fun a ha b hb =>
      hp a b (List.of_mem_filter ha) (List.of_mem_filter hb)
  have hsub : List.Sublist (l.filter p) (l.insertionSort r) :=
    List.sublist_insertionSort hpair (List.filter_sublist l)
  have hsub2 : List.Sublist ((l.filter p).filter p) ((l.insertionSort r).filter p) :=
    hsub.filter p
  rw [List.filter_eq_self.mpr (fun a ha => List.of_mem_filter ha)] at hsub2
  have hlen : (l.filter p).length = ((l.insertionSort r).filter p).length :=
    (((List.perm_insertionSort r l).filter p).length_eq).symm
  exact (hsub2.eq_of_length hlen).symm

/-- Claim C7: with a single sort directive the query engine stably sorts
the filtered records by the comparator of the source: the result is a
permutation of the filtered set; records carrying the same sort-key value
keep their relative pre-sort order; over homogeneous primitive keys (all
strings or all numbers) the result is sorted by the comparator; and the
comparator compares strings lexicographically, numbers numerically,
answers equal on incomparable values, and orients ascending under the
declared asc direction and descending otherwise. -/
theorem c7_sort_is_stable_and_ordered
    (records : List Rec) (f : List (String × Prim)) (k dir : String) :
    (find records { filter := f, sort := some (k, dir) }).Perm (collectResults f records)
    ∧ (∀ v : Prim,
        (find records { filter := f, sort := some (k, dir) }).filter
            (fun item => recGet item k == v)
          = (collectResults f records).filter (fun item => recGet item k == v))
    ∧ ((records.all (fun item => isStringVal (recGet item k)) = true
          ∨ records.all (fun item => isNumberVal (recGet item k)) = true) →
        (find records { filter := f, sort := some (k, dir) }).Pairwise
          (fun a b => jsCmp k (jsToLower dir) a b ≤ 0))
    ∧ (∀ a b : String, jsLt (.str a) (.str b) = decide (a < b))
    ∧ (∀ a b : Int, jsLt (.num a) (.num b) = decide (a < b))
    ∧ (∀ a b : Rec, jsLt (recGet a k) (recGet b k) = false →
        jsLt (recGet b k) (recGet a k) = false → jsCmp k (jsToLower dir) a b = 0)
    ∧ ((jsToLower dir == "asc") = true → ∀ a b : Rec,
        (jsCmp k (jsToLower dir) a b ≤ 0 ↔ jsLt (recGet b k) (recGet a k) = false))
    ∧ ((jsToLower dir == "asc") = false → ∀ a b : Rec,
        (jsCmp k (jsToLower dir) a b ≤ 0 ↔ jsLt (recGet a k) (recGet b k) = false)) := by
  have hfind : find records { filter := f, sort := some (k, dir) }
      = (collectResults f records).insertionSort
          (fun a b => jsCmp k (jsToLower dir) a b ≤ 0) := rfl
  have hmem : ∀ x ∈ collectResults f records, x ∈ records := by
    intro x hx
    rw [collectResults_eq_filter] at hx
    exact (List.mem_filter.mp hx).1
  refine ⟨?_, ?_, ?_, fun a b => rfl, fun a b => rfl, ?_, ?_, ?_⟩
  · rw [hfind]
    exact List.perm_insertionSort _ _
  · intro v
    rw [hfind]
    apply insertionSort_filter_stable
    intro a b ha hb
    have h1 : recGet a k = v := beq_iff_eq.mp ha
    have h2 : recGet b k = v := beq_iff_eq.mp hb
    simp [jsCmp, jsGt, h1, h2, jsLt_irrefl]
  · intro hhom
    rw [hfind]
    apply sorted_insertionSort_local
    · intro a _ b _
      exact jsCmp_le_total k (jsToLower dir) a b
    · intro a ha b hb c hc hab hbc
      rcases hhom with hstr | hnum
      · have getS : ∀ x ∈ records, ∃ sx, recGet x k = Prim.str sx := by
          intro x hx
          have hh := List.all_eq_true.mp hstr x hx
          cases hrec : recGet x k <;> rw [hrec] at hh <;> simp [isStringVal] at hh
          exact ⟨_, rfl⟩
        obtain ⟨sa, hsa⟩ := getS a (hmem a ha)
        obtain ⟨sb, hsb⟩ := getS b (hmem b hb)
        obtain ⟨sc, hsc⟩ := getS c (hmem c hc)
        cases hord : (jsToLower dir == "asc") with
        | true =>
          have h1 := (jsCmp_le_zero_asc k (jsToLower dir) hord a b).mp hab
          have h2 := (jsCmp_le_zero_asc k (jsToLower dir) hord b c).mp hbc
          rw [hsb, hsa] at h1
          rw [hsc, hsb] at h2
          simp only [jsLt, decide_eq_false_iff_not] at h1 h2
          refine (jsCmp_le_zero_asc k (jsToLower dir) hord a c).mpr ?_
          rw [hsc, hsa]
          simp only [jsLt, decide_eq_false_iff_not]
          exact not_lt.mpr (le_trans (not_lt.mp h1) (not_lt.mp h2))
        | false =>
          have h1 := (jsCmp_le_zero_desc k (jsToLower dir) hord a b).mp hab
          have h2 := (jsCmp_le_zero_desc k (jsToLower dir) hord b c).mp hbc
          rw [hsa, hsb] at h1
          rw [hsb, hsc] at h2
          simp only [jsLt, decide_eq_false_iff_not] at h1 h2
          refine (jsCmp_le_zero_desc k (jsToLower dir) hord a c).mpr ?_
          rw [hsa, hsc]
          simp only [jsLt, decide_eq_false_iff_not]
          exact not_lt.mpr (le_trans (not_lt.mp h2) (not_lt.mp h1))
      · have getN : ∀ x ∈ records, ∃ nx, recGet x k = Prim.num nx := by
          intro x hx
          have hh := List.all_eq_true.mp hnum x hx
          cases hrec : recGet x k <;> rw [hrec] at hh <;> simp [isNumberVal] at hh
          exact ⟨_, rfl⟩
        obtain ⟨na, hna⟩ := getN a (hmem a ha)
        obtain ⟨nb, hnb⟩ := getN b (hmem b hb)
        obtain ⟨nc, hnc⟩ := getN c (hmem c hc)
        cases hord : (jsToLower dir == "asc") with
        | true =>
          have h1 := (jsCmp_le_zero_asc k (jsToLower dir) hord a b).mp hab
          have h2 := (jsCmp_le_zero_asc k (jsToLower dir) hord b c).mp hbc
          rw [hnb, hna] at h1
          rw [hnc, hnb] at h2
          simp only [jsLt, toNumOpt, numOptLt, decide_eq_false_iff_not] at h1 h2
          refine (jsCmp_le_zero_asc k (jsToLower dir) hord a c).mpr ?_
          rw [hnc, hna]
          simp only [jsLt, toNumOpt, numOptLt, decide_eq_false_iff_not]
          omega
        | false =>
          have h1 := (jsCmp_le_zero_desc k (jsToLower dir) hord a b).mp hab
          have h2 := (jsCmp_le_zero_desc k (jsToLower dir) hord b c).mp hbc
          rw [hna, hnb] at h1
          rw [hnb, hnc] at h2
          simp only [jsLt, toNumOpt, numOptLt, decide_eq_false_iff_not] at h1 h2
          refine (jsCmp_le_zero_desc k (jsToLower dir) hord a c).mpr ?_
          rw [hna, hnc]
          simp only [jsLt, toNumOpt, numOptLt, decide_eq_false_iff_not]
          omega
  · intro a b h1 h2
    simp [jsCmp, jsGt, h1, h2]
  · intro hord a b
    exact jsCmp_le_zero_asc k (jsToLower dir) hord a b
  · intro hord a b
    exact jsCmp_le_zero_desc k (jsToLower dir) hord a b

/-- Claim C7 witness: an ascending sort of three records by a numeric key
is a permutation of its input and is pairwise ordered by the comparator;
a record without the key compares through its undefined read. -/
theorem c7_witness :
    (find [[("a", Prim.num 2)], [("a", Prim.num 1)], [("c", Prim.num 9), ("a", Prim.num 1)]]
        { sort := some ("a", "asc") }).Perm
      (collectResults []
        [[("a", Prim.num 2)], [("a", Prim.num 1)], [("c", Prim.num 9), ("a", Prim.num 1)]])
    ∧ (find [[("a", Prim.num 2)], [("a", Prim.num 1)], [("c", Prim.num 9), ("a", Prim.num 1)]]
        { sort := some ("a", "asc") }).Pairwise
      (fun x y => jsCmp "a" (jsToLower "asc") x y ≤ 0) :=
  ⟨(c7_sort_is_stable_and_ordered
      [[("a", Prim.num 2)], [("a", Prim.num 1)], [("c", Prim.num 9), ("a", Prim.num 1)]]
      [] "a" "asc").1,
   (c7_sort_is_stable_and_ordered
      [[("a", Prim.num 2)], [("a", Prim.num 1)], [("c", Prim.num 9), ("a", Prim.num 1)]]
      [] "a" "asc").2.2.1 (Or.inr (by decide))⟩

end MockApi
